import Mathlib

/-!
Verification of the scanning engine of `portscanner-go`
(`internal/scanner/scanner.go`), shallowly embedded in Lean.

Network behaviour (what a dial attempt and the subsequent socket reads
return) is abstracted into explicit environment values; everything the
Go code computes from those bytes is translated function by function.
-/

namespace PortScanner

/-- Go `strings.HasPrefix(s, pre)`. -/
def hasPrefixStr (s pre : String) : Bool := pre.data.isPrefixOf s.data

/-- Go `strings.Contains(s, sub)`. -/
def containsStr (s sub : String) : Bool := decide (sub.data <:+: s.data)

/-- ASCII uppercase of one character.  Go `strings.ToUpper` also maps
non-ASCII letters, but every call site below feeds it sanitized text,
which is ASCII-only, so the two agree there. -/
def asciiToUpper (c : Char) : Char :=
  if 'a' ≤ c ∧ c ≤ 'z' then Char.ofNat (c.toNat - 32) else c

/-- Go `strings.ToUpper` on ASCII text. -/
def toUpperStr (s : String) : String := ⟨s.data.map asciiToUpper⟩

/-- ASCII lowercase of one character.  Used only for the
case-insensitive `server:` header-name comparison, where non-ASCII
characters can never produce the ASCII name, so agreeing with Go on
ASCII suffices. -/
def asciiToLower (c : Char) : Char :=
  if 'A' ≤ c ∧ c ≤ 'Z' then Char.ofNat (c.toNat + 32) else c

/-- Go `strings.ToLower` on ASCII text. -/
def toLowerStr (s : String) : String := ⟨s.data.map asciiToLower⟩

/-- Go `unicode.IsSpace` restricted to the Latin-1 range (space, \t,
\n, \v, \f, \r, NEL, NBSP), which is what `strings.TrimSpace` trims in
the inputs arising here. -/
def isSpaceGo (c : Char) : Bool :=
  c = ' ' ∨ c = '\t' ∨ c = '\n' ∨ c.toNat = 11 ∨ c.toNat = 12 ∨
    c = '\r' ∨ c.toNat = 0x85 ∨ c.toNat = 0xA0

/-- Go `strings.TrimSpace`. -/
def trimSpaceStr (s : String) : String :=
  ⟨((s.data.dropWhile isSpaceGo).reverse.dropWhile isSpaceGo).reverse⟩

/-- The loop body of `sanitizeBanner` (scanner.go:84-102): the Boolean
is the `lastSpace` flag, threaded in the same order the Go loop visits
the runes. -/
def sanitizeList : Bool → List Char → List Char
  | _, [] => []
  | lastSpace, r :: rest =>
    if r.toNat < 32 ∨ 126 < r.toNat then sanitizeList lastSpace rest
    else if r = '\n' ∨ r = '\r' ∨ r = '\t' ∨ r = ' ' then
      if lastSpace then sanitizeList true rest
      else ' ' :: sanitizeList true rest
    else r :: sanitizeList false rest

/-- Function `sanitizeBanner` (scanner.go:84-102). -/
def sanitizeBanner (s : String) : String := ⟨sanitizeList false s.data⟩

/-- Spec-style predicate: the character is printable ASCII, i.e. in
[32, 126]. -/
def specKeep (c : Char) : Bool := 32 ≤ c.toNat ∧ c.toNat ≤ 126

/-- Spec-style space collapsing: every run of consecutive `' '`
characters becomes a single `' '`; the Boolean records whether the
previous kept character was a space. -/
def collapseSpaces : Bool → List Char → List Char
  | _, [] => []
  | prev, c :: rest =>
    if c = ' ' then
      if prev then collapseSpaces true rest
      else ' ' :: collapseSpaces true rest
    else c :: collapseSpaces false rest

/-- Scanner for the no-two-adjacent-spaces property; the Boolean records whether the
previous character was a space. -/
def noDS : Bool → List Char → Bool
  | _, [] => true
  | prev, c :: rest => if c = ' ' then !prev && noDS true rest else noDS false rest

theorem sanitizeList_eq_collapse (l : List Char) :
    ∀ b, sanitizeList b l = collapseSpaces b (l.filter specKeep) := by
  induction l with
  | nil => intro b; rfl
  | cons r rest ih =>
    intro b
    by_cases hdrop : r.toNat < 32 ∨ 126 < r.toNat
    · have hk : specKeep r = false := by
        simp only [specKeep, decide_eq_false_iff_not]
        omega
      simp [sanitizeList, hdrop, List.filter_cons, hk, ih]
    · have hk : specKeep r = true := by
        simp only [specKeep, decide_eq_true_eq]
        omega
      push_neg at hdrop
      by_cases hsp : r = ' '
      · subst hsp
        simp only [sanitizeList, collapseSpaces, List.filter_cons, hk]
        have : ¬((' ' : Char).toNat < 32 ∨ 126 < (' ' : Char).toNat) := by decide
        rw [if_neg this, if_pos (by simp)]
        by_cases hb : b
        · subst hb; simp [collapseSpaces, ih]
        · simp only [Bool.not_eq_true] at hb; subst hb
          simp [collapseSpaces, ih]
      · have hn : r ≠ '\n' := by
          intro h; subst h; revert hdrop; decide
        have hr : r ≠ '\r' := by
          intro h; subst h; revert hdrop; decide
        have ht : r ≠ '\t' := by
          intro h; subst h; revert hdrop; decide
        simp only [sanitizeList, collapseSpaces, List.filter_cons, hk]
        rw [if_neg (by omega), if_neg (by simp [hn, hr, ht, hsp]),
          if_neg hsp]
        simp [ih]

theorem noDS_collapseSpaces (l : List Char) :
    ∀ b, noDS b (collapseSpaces b l) = true := by
  induction l with
  | nil => intro b; rfl
  | cons c rest ih =>
    intro b
    by_cases hsp : c = ' '
    · subst hsp
      by_cases hb : b
      · subst hb; simpa [collapseSpaces] using ih true
      · simp only [Bool.not_eq_true] at hb; subst hb
        simpa [collapseSpaces, noDS] using ih true
    · simpa [collapseSpaces, hsp, noDS] using ih false

theorem collapseSpaces_of_noDS (l : List Char) :
    ∀ b, noDS b l = true → collapseSpaces b l = l := by
  induction l with
  | nil => intro b _; rfl
  | cons c rest ih =>
    intro b h
    by_cases hsp : c = ' '
    · subst hsp
      cases b with
      | true => simp [noDS] at h
      | false =>
        simp only [noDS, if_pos rfl, Bool.not_false, Bool.true_and] at h
        simp [collapseSpaces, ih true h]
    · simp only [noDS, if_neg hsp] at h
      simp [collapseSpaces, hsp, ih false h]

theorem collapseSpaces_keep (l : List Char)
    (hl : ∀ c ∈ l, specKeep c = true) :
    ∀ b, ∀ c ∈ collapseSpaces b l, specKeep c = true := by
  induction l with
  | nil => intro b c hc; simp [collapseSpaces] at hc
  | cons a rest ih =>
    intro b c hc
    have ha : specKeep a = true := hl a (by simp)
    have hrest : ∀ c ∈ rest, specKeep c = true := fun c hc => hl c (by simp [hc])
    by_cases hsp : a = ' '
    · subst hsp
      by_cases hb : b
      · subst hb
        exact ih hrest true c (by simpa [collapseSpaces] using hc)
      · simp only [Bool.not_eq_true] at hb; subst hb
        rw [show collapseSpaces false (' ' :: rest) = ' ' :: collapseSpaces true rest
          from by simp [collapseSpaces]] at hc
        cases List.mem_cons.mp hc with
        | inl h => subst h; decide
        | inr h => exact ih hrest true c h
    · rw [show collapseSpaces b (a :: rest) = a :: collapseSpaces false rest
        from by simp [collapseSpaces, hsp]] at hc
      cases List.mem_cons.mp hc with
      | inl h => subst h; exact ha
      | inr h => exact ih hrest false c h

/-- Go `bufio.Reader.ReadString('\n')` over an in-memory byte stream:
returns the data up to and including the first `'\n'` together with
`true`, or the whole remaining stream with `false` (an EOF error) when
no `'\n'` is left, plus the unread rest of the stream. -/
def readLineNL : List Char → List Char × Bool × List Char
  | [] => ([], false, [])
  | c :: cs =>
    if c = '\n' then ([c], true, cs)
    else
      let r := readLineNL cs
      (c :: r.1, r.2.1, r.2.2)

/-- The sanitized first response line (`line` in `httpProbe`,
scanner.go:203-204; the read error is ignored there). -/
def statusLine (raw : String) : String := sanitizeBanner ⟨(readLineNL raw.data).1⟩

/-- The stream position after the status line has been consumed. -/
def afterStatus (raw : String) : List Char := (readLineNL raw.data).2.2

/-- The header loop shared by `httpProbe` (scanner.go:208-220) and the
HTTPS `HEAD` follow-up in `tlsProbe` (scanner.go:273-285): read at most
the given number of lines, stop on a read error or a blank line, and
remember the (last) `Server:` header value, case-insensitively, as
`sanitizeBanner(TrimSpace(hs[7:]))`. -/
def scanHeaders : Nat → List Char → String → String
  | 0, _, server => server
  | k + 1, rest, server =>
    let r := readLineNL rest
    if r.2.1 = false then server
    else
      let hs := trimSpaceStr ⟨r.1⟩
      if hs = "" then server
      else
        let server2 :=
          if hasPrefixStr (toLowerStr hs) "server:"
          then sanitizeBanner (trimSpaceStr ⟨hs.data.drop 7⟩)
          else server
        scanHeaders k r.2.2 server2

/-- Function `httpProbe` (scanner.go:197-225).  The bytes the server sends back
after the `GET / HTTP/1.0` request are the `raw` argument; the `host`
argument only feeds the request that is written, never the result. -/
def httpProbe (host : String) (raw : String) : String × String × String :=
  let _req := "GET / HTTP/1.0 Host: " ++ host
  let line := statusLine raw
  if hasPrefixStr line "HTTP/" then
    let server := scanHeaders 20 (afterStatus raw) ""
    let fp := trimSpaceStr (line ++ " " ++ server)
    ("http", line, fp)
  else ("", "", "")

/-- What a successful TLS handshake hands back to `tlsProbe`: the first
peer certificate's Subject CN and Issuer CN when a certificate is
present, the negotiated ALPN protocol, and the bytes readable after the
`HEAD` request sent over the TLS channel. -/
structure TLSState where
  cert : Option (String × String)
  alpn : String
  httpsRaw : String
deriving DecidableEq

/-- The `switch port` of `tlsProbe` (scanner.go:235-245). -/
def tlsServiceForPort (port : Nat) : String :=
  if port = 443 ∨ port = 8443 ∨ port = 9443 then "https"
  else if port = 993 then "imaps"
  else if port = 995 then "pop3s"
  else if port = 465 then "smtps"
  else "tls"

/-- Function `tlsProbe` (scanner.go:227-296); `none` models a handshake
failure. -/
def tlsProbe (host : String) (ost : Option TLSState) (port : Nat) :
    String × String × String :=
  let _sni := host
  match ost with
  | none => ("", "", "")
  | some st =>
    let svc := tlsServiceForPort port
    let certParts :=
      match st.cert with
      | some cnIss =>
        (if cnIss.1 ≠ "" then ["CN=" ++ sanitizeBanner cnIss.1] else []) ++
          (if cnIss.2 ≠ "" then ["Issuer=" ++ sanitizeBanner cnIss.2] else [])
      | none => []
    let fpParts := certParts ++ (if st.alpn ≠ "" then ["ALPN=" ++ st.alpn] else [])
    let fp := String.intercalate ", " fpParts
    if svc = "https" then
      let line := statusLine st.httpsRaw
      if hasPrefixStr line "HTTP/" then
        let server := scanHeaders 20 (afterStatus st.httpsRaw) ""
        let fp2 :=
          if server ≠ "" then (if fp ≠ "" then fp ++ ", " else fp) ++ ("Server=" ++ server)
          else fp
        (svc, line, fp2)
      else (svc, "", fp)
    else (svc, "", fp)

/-- Everything an established connection can yield to the prober: the
bytes of the immediate first read (empty when nothing arrived before
the deadline), the bytes of the one SSH retry read, the bytes readable
after the HTTP request, and the TLS handshake outcome. -/
structure ConnEnv where
  read1 : String
  read2 : String
  httpRaw : String
  tls : Option TLSState
deriving DecidableEq

/-- The banner after the prober's immediate first read
(scanner.go:106-112). -/
def firstBanner (c : ConnEnv) : String :=
  if c.read1 = "" then "" else sanitizeBanner c.read1

/-- The banner the SSH branch ends up with after its one retry read
(scanner.go:116-123): the retry happens only when the first read gave
no banner. -/
def sshBanner (c : ConnEnv) : String :=
  if firstBanner c = "" then (if c.read2 = "" then "" else sanitizeBanner c.read2)
  else firstBanner c

/-- Function `isHTTPPort` (scanner.go:181-187). -/
def isHTTPPort (p : Nat) : Bool :=
  p = 80 ∨ p = 8000 ∨ p = 8080 ∨ p = 8081 ∨ p = 8888 ∨ p = 9000 ∨ p = 9090

/-- Function `isTLSPort` (scanner.go:189-195). -/
def isTLSPort (p : Nat) : Bool :=
  p = 443 ∨ p = 8443 ∨ p = 993 ∨ p = 995 ∨ p = 465 ∨ p = 9443

/-- Function `fingerprintService` (scanner.go:104-179): the heuristic cascade,
returning `(service, banner, fingerprint)`. -/
def fingerprintService (host : String) (port : Nat) (c : ConnEnv) :
    String × String × String :=
  let banner := firstBanner c
  if hasPrefixStr banner "SSH-" ∨ port = 22 then
    let b := sshBanner c
    if b ≠ "" then ("ssh", b, b) else ("ssh", "", "")
  else if (port = 25 ∨ port = 587 ∨ port = 465) ∧
      (containsStr (toUpperStr banner) "SMTP" ∨ hasPrefixStr banner "220 ") then
    ("smtp", banner, banner)
  else if port = 21 ∧
      (hasPrefixStr banner "220 " ∨ containsStr (toUpperStr banner) "FTP") then
    ("ftp", banner, banner)
  else if port = 110 ∧
      (hasPrefixStr banner "+OK" ∨ containsStr (toUpperStr banner) "POP3") then
    ("pop3", banner, banner)
  else if port = 143 ∧
      (hasPrefixStr banner "* OK" ∨ containsStr (toUpperStr banner) "IMAP") then
    ("imap", banner, banner)
  else
    let httpRes := if isHTTPPort port then httpProbe host c.httpRaw else ("", "", "")
    if httpRes.1 ≠ "" then httpRes
    else
      let tlsRes := if isTLSPort port then tlsProbe host c.tls port else ("", "", "")
      if tlsRes.1 ≠ "" then tlsRes
      else if banner ≠ "" then ("", banner, "") else ("", "", "")

/-- Function `knownServiceForPort` (scanner.go:299-406). -/
def knownServiceForPort (p : Nat) : String :=
  match p with
  | 1 => "tcpmux"
  | 7 => "echo"
  | 13 => "daytime"
  | 19 => "chargen"
  | 20 => "ftp-data"
  | 21 => "ftp"
  | 22 => "ssh"
  | 23 => "telnet"
  | 25 => "smtp"
  | 53 => "dns"
  | 67 => "dhcp-server"
  | 68 => "dhcp-client"
  | 69 => "tftp"
  | 80 => "http"
  | 110 => "pop3"
  | 111 => "rpcbind"
  | 123 => "ntp"
  | 135 => "msrpc"
  | 139 => "netbios-ssn"
  | 143 => "imap"
  | 161 => "snmp"
  | 162 => "snmp-trap"
  | 389 => "ldap"
  | 443 => "https"
  | 445 => "smb"
  | 465 => "smtps"
  | 500 => "isakmp"
  | 587 => "submission"
  | 631 => "ipp"
  | 993 => "imaps"
  | 995 => "pop3s"
  | 1433 => "mssql"
  | 1521 => "oracle"
  | 1723 => "pptp"
  | 2049 => "nfs"
  | 2181 => "zookeeper"
  | 3128 => "proxy"
  | 3306 => "mysql"
  | 3389 => "rdp"
  | 5432 => "postgresql"
  | 5900 => "vnc"
  | 6379 => "redis"
  | 7001 => "http-alt"
  | 8080 => "http-alt"
  | 8443 => "https-alt"
  | 8888 => "http-alt"
  | 9000 => "http-alt"
  | 9090 => "http-alt"
  | 9200 => "elasticsearch"
  | 27017 => "mongodb"
  | 11211 => "memcached"
  | _ => ""

/-- Structure `Result` (scanner.go:14-23). -/
structure Result where
  host : String
  port : Nat
  «open» : Bool
  latency : Nat
  service : String
  banner : String
  fingerprint : String
  err : String
deriving DecidableEq

/-- What `net.DialTimeout` yields for one (host, port) pair: a failure
with the error's message, or an established connection described by
what it will let the prober read. -/
inductive DialOutcome where
  | failed (errMsg : String)
  | connected (conn : ConnEnv)
deriving DecidableEq

/-- The body of one worker iteration (scanner.go:38-57): dial, time the
attempt, optionally probe, fall back to the static service table, and
emit exactly one `Result`.  `net` described the network's behaviour per
port and `lat` the measured latency per port. -/
def scanOnePort (host : String) (probe : Bool) (net : Nat → DialOutcome)
    (lat : Nat → Nat) (p : Nat) : Result :=
  match net p with
  | .failed e => ⟨host, p, false, lat p, "", "", "", e⟩
  | .connected c =>
    let sbf := if probe then fingerprintService host p c else ("", "", "")
    let service := if sbf.1 = "" then knownServiceForPort p else sbf.1
    ⟨host, p, true, lat p, service, sbf.2.1, sbf.2.2, ""⟩

/-- Lexicographic strict order on character lists: Go's `<` on strings
(byte-wise comparison; on UTF-8 data byte order and code-point order
coincide). -/
def charListLt : List Char → List Char → Bool
  | [], [] => false
  | [], _ :: _ => true
  | _ :: _, [] => false
  | a :: as, b :: bs => if a < b then true else if b < a then false else charListLt as bs

/-- Go `s1 < s2` on strings. -/
def strLt (a b : String) : Bool := charListLt a.data b.data

theorem charListLt_cons_self (a : Char) (as bs : List Char) :
    charListLt (a :: as) (a :: bs) = charListLt as bs := by
  simp only [charListLt]
  rw [if_neg (lt_irrefl a), if_neg (lt_irrefl a)]

theorem charListLt_trans : ∀ l1 l2 l3 : List Char, charListLt l1 l2 = true →
    charListLt l2 l3 = true → charListLt l1 l3 = true := by
  intro l1
  induction l1 with
  | nil =>
    intro l2 l3 h12 h23
    cases l3 with
    | nil =>
      cases l2 with
      | nil => exact h12
      | cons b bs => simp [charListLt] at h23
    | cons c cs => simp [charListLt]
  | cons a as ih =>
    intro l2 l3 h12 h23
    cases l2 with
    | nil => simp [charListLt] at h12
    | cons b bs =>
      cases l3 with
      | nil => simp [charListLt] at h23
      | cons c cs =>
        rcases lt_trichotomy a b with hab | hab | hab
        · rcases lt_trichotomy b c with hbc | hbc | hbc
          · simp [charListLt, if_pos (lt_trans hab hbc)]
          · subst hbc
            simp [charListLt, if_pos hab]
          · simp only [charListLt] at h23
            rw [if_neg (not_lt.mpr (le_of_lt hbc)), if_pos hbc] at h23
            exact absurd h23 (by decide)
        · subst hab
          rw [charListLt_cons_self] at h12
          rcases lt_trichotomy a c with hac | hac | hac
          · simp [charListLt, if_pos hac]
          · subst hac
            rw [charListLt_cons_self] at h23 ⊢
            exact ih bs cs h12 h23
          · simp only [charListLt] at h23
            rw [if_neg (not_lt.mpr (le_of_lt hac)), if_pos hac] at h23
            exact absurd h23 (by decide)
        · simp only [charListLt] at h12
          rw [if_neg (not_lt.mpr (le_of_lt hab)), if_pos hab] at h12
          exact absurd h12 (by decide)

theorem charListLt_trichotomy : ∀ l1 l2 : List Char,
    charListLt l1 l2 = true ∨ l1 = l2 ∨ charListLt l2 l1 = true := by
  intro l1
  induction l1 with
  | nil =>
    intro l2
    cases l2 with
    | nil => exact Or.inr (Or.inl rfl)
    | cons b bs => exact Or.inl (by simp [charListLt])
  | cons a as ih =>
    intro l2
    cases l2 with
    | nil => exact Or.inr (Or.inr (by simp [charListLt]))
    | cons b bs =>
      rcases lt_trichotomy a b with h | h | h
      · exact Or.inl (by simp [charListLt, if_pos h])
      · subst h
        rcases ih bs with h2 | h2 | h2
        · left
          rw [charListLt_cons_self]
          exact h2
        · right; left
          rw [h2]
        · right; right
          rw [charListLt_cons_self]
          exact h2
      · right; right
        simp [charListLt, if_pos h]

/-- The ordering imposed by the final `sort.Slice` (scanner.go:75-80):
`a` may precede `b` iff the comparator does not put `b` strictly before
`a`, i.e. host strictly below, or equal host and port below-or-equal. -/
def ResultLE (a b : Result) : Prop :=
  strLt a.host b.host = true ∨ (a.host = b.host ∧ a.port ≤ b.port)

instance : DecidableRel ResultLE := fun a b => by
  unfold ResultLE; infer_instance

instance : IsTrans Result ResultLE where
  trans a b c hab hbc := by
    rcases hab with h1 | ⟨h1, p1⟩
    · rcases hbc with h2 | ⟨h2, _⟩
      · exact Or.inl (charListLt_trans _ _ _ h1 h2)
      · exact Or.inl (h2 ▸ h1)
    · rcases hbc with h2 | ⟨h2, p2⟩
      · exact Or.inl (h1 ▸ h2)
      · exact Or.inr ⟨h1.trans h2, le_trans p1 p2⟩

instance : IsTotal Result ResultLE where
  total a b := by
    rcases charListLt_trichotomy a.host.data b.host.data with h | h | h
    · exact Or.inl (Or.inl h)
    · have hh : a.host = b.host := congrArg String.mk h
      rcases Nat.le_total a.port b.port with hp | hp
      · exact Or.inl (Or.inr ⟨hh, hp⟩)
      · exact Or.inr (Or.inr ⟨hh.symm, hp⟩)
    · exact Or.inr (Or.inl h)

/-- The `if workers <= 0 { workers = 100 }` guard (scanner.go:27-29). -/
def effectiveWorkers (workers : Int) : Int :=
  if workers ≤ 0 then 100 else workers

/-- Function `ScanHostPorts` (scanner.go:26-82).  The worker pool's completion
order is nondeterministic; `arrival` is the order in which the per-port
results reach the collecting loop, and is a permutation of `ports` in
every execution (each submitted job is consumed exactly once and emits
exactly one result).  The collected results are then sorted exactly as
the final `sort.Slice` does. -/
def ScanHostPorts (host : String) (ports : List Nat) (workers : Int)
    (probe : Bool) (net : Nat → DialOutcome) (lat : Nat → Nat)
    (arrival : List Nat) : List Result :=
  let _w := effectiveWorkers workers
  let _jobs := ports
  List.insertionSort ResultLE (arrival.map (scanOnePort host probe net lat))

/-- The per-host driver loop (main.go `main`): scan each host in turn
and concatenate the per-host result slices, with no closed-port
filtering. -/
def scanAllHosts (hosts : List String) (ports : List Nat) (workers : Int)
    (probe : Bool) (nets : String → Nat → DialOutcome)
    (lats : String → Nat → Nat) (arrivals : String → List Nat) : List Result :=
  (hosts.map fun h =>
    ScanHostPorts h ports workers probe (nets h) (lats h) (arrivals h)).flatten

theorem sanitizeBanner_data (s : String) :
    (sanitizeBanner s).data = collapseSpaces false (s.data.filter specKeep) := by
  simp [sanitizeBanner, sanitizeList_eq_collapse]

/-- C9: `sanitizeBanner` is idempotent: sanitizing already-sanitized
text is a no-op, for every input string. -/
theorem sanitizeBanner_idempotent (s : String) :
    sanitizeBanner (sanitizeBanner s) = sanitizeBanner s := by
  have hkeep : ∀ c ∈ (sanitizeBanner s).data, specKeep c = true := by
    rw [sanitizeBanner_data]
    exact collapseSpaces_keep _ (fun c hc => (List.mem_filter.mp hc).2) false
  have hnds : noDS false (sanitizeBanner s).data = true := by
    rw [sanitizeBanner_data]; exact noDS_collapseSpaces _ false
  show (⟨sanitizeList false (sanitizeBanner s).data⟩ : String) = sanitizeBanner s
  rw [sanitizeList_eq_collapse, List.filter_eq_self.mpr hkeep,
    collapseSpaces_of_noDS _ false hnds]

/-- C3 counterexample: on the input `"a\nb"` the code yields `"ab"`,
not `"a b"` as the claim states — the newline is below 32 and is
dropped by the printable-range check before the space-collapsing branch
can see it. -/
theorem sanitizeBanner_newline_cex :
    sanitizeBanner "a\nb" = "ab" ∧ sanitizeBanner "a\nb" ≠ "a b" := by
  constructor
  · rfl
  · decide

/-- C3 amended: `sanitizeBanner` drops every character outside the
printable range [32,126] — including `\n`, `\r` and `\t`, which are
below 32 — without emitting a space, collapses every run of space
characters (a run may be interrupted by dropped characters) into one
space, and preserves all other characters verbatim in order. -/
theorem sanitizeBanner_amended (s : String) :
    sanitizeBanner s = ⟨collapseSpaces false (s.data.filter specKeep)⟩ :=
  congrArg String.mk (sanitizeList_eq_collapse s.data false)

theorem scanOnePort_port (host : String) (probe : Bool) (net : Nat → DialOutcome)
    (lat : Nat → Nat) (p : Nat) : (scanOnePort host probe net lat p).port = p := by
  unfold scanOnePort; cases net p <;> rfl

theorem scanHostPorts_perm (host : String) (ports : List Nat) (workers : Int)
    (probe : Bool) (net : Nat → DialOutcome) (lat : Nat → Nat) (arrival : List Nat) :
    (ScanHostPorts host ports workers probe net lat arrival).Perm
      (arrival.map (scanOnePort host probe net lat)) :=
  List.perm_insertionSort _ _

/-- C1: every `Result` produced by `ScanHostPorts` is closed exactly
when its error is non-empty, and a closed result carries no service,
banner or fingerprint.  The hypothesis records the property of the Go
runtime that `err.Error()` for a failed dial is never the empty
string. -/
theorem scanHostPorts_open_iff_err (host : String) (ports : List Nat) (workers : Int)
    (probe : Bool) (net : Nat → DialOutcome) (lat : Nat → Nat) (arrival : List Nat)
    (hne : ∀ p e, net p = DialOutcome.failed e → e ≠ "") :
    ∀ r ∈ ScanHostPorts host ports workers probe net lat arrival,
      (r.«open» = false ↔ r.err ≠ "") ∧
        (r.«open» = false → r.service = "" ∧ r.banner = "" ∧ r.fingerprint = "") := by
  intro r hr
  have hr2 : r ∈ arrival.map (scanOnePort host probe net lat) :=
    (scanHostPorts_perm host ports workers probe net lat arrival).mem_iff.mp hr
  obtain ⟨p, _, rfl⟩ := List.mem_map.mp hr2
  cases hnet : net p with
  | failed e =>
    have he := hne p e hnet
    exact ⟨by simp [scanOnePort, hnet, he], by simp [scanOnePort, hnet]⟩
  | connected c =>
    exact ⟨by simp [scanOnePort, hnet], by simp [scanOnePort, hnet]⟩

/-- C4: the sequence returned by `ScanHostPorts` is sorted; every pair
of adjacent results satisfies host strictly below, or equal host and
port below-or-equal. -/
theorem scanHostPorts_sorted (host : String) (ports : List Nat) (workers : Int)
    (probe : Bool) (net : Nat → DialOutcome) (lat : Nat → Nat) (arrival : List Nat) :
    List.Chain' (fun a b : Result =>
        strLt a.host b.host = true ∨ (a.host = b.host ∧ a.port ≤ b.port))
      (ScanHostPorts host ports workers probe net lat arrival) := by
  have h : List.Sorted ResultLE (ScanHostPorts host ports workers probe net lat arrival) :=
    List.sorted_insertionSort ResultLE _
  exact List.Pairwise.chain' h

theorem scanHostPorts_length (host : String) (ports : List Nat) (workers : Int)
    (probe : Bool) (net : Nat → DialOutcome) (lat : Nat → Nat) (arrival : List Nat)
    (h : arrival.Perm ports) :
    (ScanHostPorts host ports workers probe net lat arrival).length = ports.length := by
  rw [(scanHostPorts_perm host ports workers probe net lat arrival).length_eq,
    List.length_map, h.length_eq]

theorem scanHostPorts_ports_perm (host : String) (ports : List Nat) (workers : Int)
    (probe : Bool) (net : Nat → DialOutcome) (lat : Nat → Nat) (arrival : List Nat)
    (h : arrival.Perm ports) :
    ((ScanHostPorts host ports workers probe net lat arrival).map Result.port).Perm ports := by
  have p1 := (scanHostPorts_perm host ports workers probe net lat arrival).map Result.port
  have h2 : (arrival.map (scanOnePort host probe net lat)).map Result.port = arrival := by
    rw [List.map_map]
    have h3 : Result.port ∘ scanOnePort host probe net lat = id :=
      funext fun p => scanOnePort_port host probe net lat p
    rw [h3, List.map_id]
  exact (h2 ▸ p1).trans h

theorem scanAllHosts_length (ports : List Nat) (workers : Int) (probe : Bool)
    (nets : String → Nat → DialOutcome) (lats : String → Nat → Nat)
    (arrivals : String → List Nat) :
    ∀ hosts : List String, (∀ hst ∈ hosts, (arrivals hst).Perm ports) →
      (scanAllHosts hosts ports workers probe nets lats arrivals).length
        = hosts.length * ports.length := by
  intro hosts
  induction hosts with
  | nil => intro _; simp [scanAllHosts]
  | cons hd tl ih =>
    intro h
    have hhd := h hd (by simp)
    have htl : ∀ hst ∈ tl, (arrivals hst).Perm ports := fun hst hm => h hst (by simp [hm])
    have hih := ih htl
    simp only [scanAllHosts, List.map_cons, List.flatten_cons, List.length_append,
      List.length_cons] at hih ⊢
    rw [scanHostPorts_length hd ports workers probe (nets hd) (lats hd) (arrivals hd) hhd,
      hih]
    ring

/-- C5: one `Result` per element of the input port list — for each
host the engine returns exactly `len(ports)` results whose ports are a
permutation of the input ports, and across hosts (with no closed-port
filtering) `len(hosts) × len(ports)` results in total. -/
theorem scan_one_result_per_port (hosts : List String) (ports : List Nat)
    (workers : Int) (probe : Bool) (nets : String → Nat → DialOutcome)
    (lats : String → Nat → Nat) (arrivals : String → List Nat)
    (h : ∀ hst ∈ hosts, (arrivals hst).Perm ports) :
    (∀ hst ∈ hosts,
        (ScanHostPorts hst ports workers probe (nets hst) (lats hst) (arrivals hst)).length
            = ports.length ∧
          ((ScanHostPorts hst ports workers probe (nets hst) (lats hst)
              (arrivals hst)).map Result.port).Perm ports) ∧
      (scanAllHosts hosts ports workers probe nets lats arrivals).length
        = hosts.length * ports.length :=
  ⟨fun hst hm =>
    ⟨scanHostPorts_length hst ports workers probe (nets hst) (lats hst) (arrivals hst)
        (h hst hm),
      scanHostPorts_ports_perm hst ports workers probe (nets hst) (lats hst) (arrivals hst)
        (h hst hm)⟩,
    scanAllHosts_length ports workers probe nets lats arrivals hosts h⟩

/-- C6: a non-positive worker count is replaced by the default 100 and
the scan proceeds with identical output; a positive worker count is
used unchanged, and the effective worker count is always positive. -/
theorem workers_guard (w : Int) :
    (w ≤ 0 → effectiveWorkers w = 100) ∧ (0 < w → effectiveWorkers w = w) ∧
      0 < effectiveWorkers w ∧
      ∀ host ports probe net lat arrival,
        ScanHostPorts host ports w probe net lat arrival =
          ScanHostPorts host ports (effectiveWorkers w) probe net lat arrival := by
  refine ⟨fun h => by simp [effectiveWorkers, h], fun h => ?_, ?_, fun _ _ _ _ _ _ => rfl⟩
  · rw [effectiveWorkers, if_neg (not_le.mpr h)]
  · unfold effectiveWorkers
    split <;> omega

/-- C7: with probing disabled, every open result has empty banner and
fingerprint and its service is exactly the static well-known-port table
entry for its port (e.g. 443 ↦ "https", 22 ↦ "ssh", and empty for a
port with no table entry such as 12345). -/
theorem scan_noProbe_static_service (host : String) (ports : List Nat) (workers : Int)
    (net : Nat → DialOutcome) (lat : Nat → Nat) (arrival : List Nat) :
    (∀ r ∈ ScanHostPorts host ports workers false net lat arrival,
        r.«open» = true →
          r.banner = "" ∧ r.fingerprint = "" ∧ r.service = knownServiceForPort r.port) ∧
      knownServiceForPort 443 = "https" ∧ knownServiceForPort 22 = "ssh" ∧
        knownServiceForPort 12345 = "" := by
  refine ⟨?_, rfl, rfl, rfl⟩
  intro r hr hopen
  have hr2 : r ∈ arrival.map (scanOnePort host false net lat) :=
    (scanHostPorts_perm host ports workers false net lat arrival).mem_iff.mp hr
  obtain ⟨p, _, rfl⟩ := List.mem_map.mp hr2
  cases hnet : net p with
  | failed e => simp [scanOnePort, hnet] at hopen
  | connected c => exact ⟨by simp [scanOnePort, hnet], by simp [scanOnePort, hnet],
      by simp [scanOnePort, hnet]⟩

theorem fingerprintService_ssh (host : String) (port : Nat) (c : ConnEnv)
    (hb : hasPrefixStr (firstBanner c) "SSH-" = true ∨ port = 22) :
    fingerprintService host port c =
      (if sshBanner c ≠ "" then ("ssh", sshBanner c, sshBanner c) else ("ssh", "", "")) := by
  unfold fingerprintService
  dsimp only
  rw [if_pos hb]

/-- C2 counterexample: on port 22 with nothing readable from either
the first read or the retry read, the prober still returns service
"ssh" (scanner.go:127), not the empty service the claim states. -/
theorem ssh_branch_cex :
    fingerprintService "h" 22 ⟨"", "", "", none⟩ = ("ssh", "", "") ∧
      (fingerprintService "h" 22 ⟨"", "", "", none⟩).1 ≠ "" := by
  exact ⟨by decide, by decide⟩

/-- C2 amended: in the SSH branch the returned service is always
"ssh", even when no banner text was obtained after the one retry; in
that case banner and fingerprint are empty, and when banner text was
obtained both equal it. -/
theorem ssh_branch_service (host : String) (port : Nat) (c : ConnEnv)
    (hb : hasPrefixStr (firstBanner c) "SSH-" = true ∨ port = 22) :
    (fingerprintService host port c).1 = "ssh" ∧
      (sshBanner c = "" → fingerprintService host port c = ("ssh", "", "")) ∧
      (sshBanner c ≠ "" →
        fingerprintService host port c = ("ssh", sshBanner c, sshBanner c)) := by
  have h := fingerprintService_ssh host port c hb
  by_cases hbb : sshBanner c = ""
  · rw [h, if_neg (not_not_intro hbb)]
    exact ⟨rfl, fun _ => rfl, fun hc => absurd hbb hc⟩
  · rw [h, if_pos hbb]
    exact ⟨rfl, fun hc => absurd hc hbb, fun _ => rfl⟩

/-- C8: when the first response line (sanitized) begins with "HTTP/",
the probe classifies the service as "http" with the sanitized status
line as banner; on the concrete response
`HTTP/1.1 200 OK\r\nServer: nginx\r\n\r\n` the fingerprint is
`HTTP/1.1 200 OK nginx`, which contains both the status line and the
Server header value "nginx". -/
theorem httpProbe_http_response :
    (∀ host raw : String, hasPrefixStr (statusLine raw) "HTTP/" = true →
        (httpProbe host raw).1 = "http" ∧ (httpProbe host raw).2.1 = statusLine raw) ∧
      httpProbe "h" "HTTP/1.1 200 OK\r\nServer: nginx\r\n\r\n" =
        ("http", "HTTP/1.1 200 OK", "HTTP/1.1 200 OK nginx") ∧
      containsStr "HTTP/1.1 200 OK nginx" "HTTP/1.1 200 OK" = true ∧
      containsStr "HTTP/1.1 200 OK nginx" "nginx" = true := by
  refine ⟨?_, by decide, by decide, by decide⟩
  intro host raw hpre
  unfold httpProbe
  dsimp only
  rw [if_pos hpre]
  exact ⟨rfl, rfl⟩

theorem httpProbe_fst (host raw : String) :
    (httpProbe host raw).1 = "http" ∨ (httpProbe host raw).1 = "" := by
  unfold httpProbe
  dsimp only
  split
  · exact Or.inl rfl
  · exact Or.inr rfl

theorem tlsProbe_fst (host : String) (ost : Option TLSState) (port : Nat) :
    (tlsProbe host ost port).1 = "" ∨
      (tlsProbe host ost port).1 = tlsServiceForPort port := by
  unfold tlsProbe
  dsimp only
  cases ost with
  | none => exact Or.inl rfl
  | some st =>
    refine Or.inr ?_
    dsimp only
    split
    · split
      · rfl
      · rfl
    · rfl

theorem tlsServiceForPort_cases (port : Nat) :
    tlsServiceForPort port = "https" ∨ tlsServiceForPort port = "imaps" ∨
      tlsServiceForPort port = "pop3s" ∨ tlsServiceForPort port = "smtps" ∨
      tlsServiceForPort port = "tls" := by
  unfold tlsServiceForPort
  split
  · exact Or.inl rfl
  · split
    · exact Or.inr (Or.inl rfl)
    · split
      · exact Or.inr (Or.inr (Or.inl rfl))
      · split
        · exact Or.inr (Or.inr (Or.inr (Or.inl rfl)))
        · exact Or.inr (Or.inr (Or.inr (Or.inr rfl)))

/-- C10: whenever the prober's banner-based cascade classified the
service — ssh, smtp, ftp, pop3 or imap — the returned fingerprint is
exactly the returned banner. -/
theorem banner_branch_fp_eq_banner (host : String) (port : Nat) (c : ConnEnv)
    (h : (fingerprintService host port c).1 = "ssh" ∨
        (fingerprintService host port c).1 = "smtp" ∨
        (fingerprintService host port c).1 = "ftp" ∨
        (fingerprintService host port c).1 = "pop3" ∨
        (fingerprintService host port c).1 = "imap") :
    (fingerprintService host port c).2.2 = (fingerprintService host port c).2.1 := by
  unfold fingerprintService at h ⊢
  dsimp only at h ⊢
  by_cases h1 : hasPrefixStr (firstBanner c) "SSH-" = true ∨ port = 22
  · rw [if_pos h1]
    by_cases h2 : sshBanner c ≠ ""
    · rw [if_pos h2]
    · rw [if_neg h2]
  · rw [if_neg h1] at h ⊢
    by_cases h2 : (port = 25 ∨ port = 587 ∨ port = 465) ∧
        (containsStr (toUpperStr (firstBanner c)) "SMTP" = true ∨
          hasPrefixStr (firstBanner c) "220 " = true)
    · rw [if_pos h2]
    · rw [if_neg h2] at h ⊢
      by_cases h3 : port = 21 ∧ (hasPrefixStr (firstBanner c) "220 " = true ∨
          containsStr (toUpperStr (firstBanner c)) "FTP" = true)
      · rw [if_pos h3]
      · rw [if_neg h3] at h ⊢
        by_cases h4 : port = 110 ∧ (hasPrefixStr (firstBanner c) "+OK" = true ∨
            containsStr (toUpperStr (firstBanner c)) "POP3" = true)
        · rw [if_pos h4]
        · rw [if_neg h4] at h ⊢
          by_cases h5 : port = 143 ∧ (hasPrefixStr (firstBanner c) "* OK" = true ∨
              containsStr (toUpperStr (firstBanner c)) "IMAP" = true)
          · rw [if_pos h5]
          · rw [if_neg h5] at h ⊢
            by_cases h6 : (if isHTTPPort port = true then httpProbe host c.httpRaw
                else ("", "", "")).1 ≠ ""
            · rw [if_pos h6] at h ⊢
              by_cases h7 : isHTTPPort port = true
              · rw [if_pos h7] at h ⊢
                rcases httpProbe_fst host c.httpRaw with hx | hx <;> rw [hx] at h <;>
                  exact absurd h (by decide)
              · rw [if_neg h7] at h6
                exact absurd rfl h6
            · rw [if_neg h6] at h ⊢
              by_cases h8 : (if isTLSPort port = true then tlsProbe host c.tls port
                  else ("", "", "")).1 ≠ ""
              · rw [if_pos h8] at h ⊢
                by_cases h9 : isTLSPort port = true
                · rw [if_pos h9] at h ⊢
                  rcases tlsProbe_fst host c.tls port with hx | hx <;> rw [hx] at h
                  · exact absurd h (by decide)
                  · rcases tlsServiceForPort_cases port with hy | hy | hy | hy | hy <;>
                      rw [hy] at h <;> exact absurd h (by decide)
                · rw [if_neg h9] at h8
                  exact absurd rfl h8
              · rw [if_neg h8] at h ⊢
                by_cases h10 : firstBanner c ≠ ""
                · rw [if_pos h10] at h
                  dsimp only at h
                  exact absurd h (by decide)
                · rw [if_neg h10] at h
                  dsimp only at h
                  exact absurd h (by decide)

/-- A concrete two-port network: an SSH daemon answers on port 22 and
every other port refuses the connection. -/
def net0 : Nat → DialOutcome := fun p =>
  if p = 22 then DialOutcome.connected ⟨"SSH-2.0-OpenSSH_9.6", "", "", none⟩
  else DialOutcome.failed "connect: connection refused"

/-- A constant measured latency. -/
def lat0 : Nat → Nat := fun _ => 3

/-- A connection whose first read yields an SSH greeting. -/
def sshEnv : ConnEnv := ⟨"SSH-2.0-OpenSSH_9.6", "", "", none⟩

/-- A connection whose first read yields an FTP greeting. -/
def ftpEnv : ConnEnv := ⟨"220 ProFTPD Server ready.", "", "", none⟩

theorem scanHostPorts_open_iff_err_witness :
    ((scanOnePort "localhost" true net0 lat0 9999).«open» = false ↔
        (scanOnePort "localhost" true net0 lat0 9999).err ≠ "") ∧
      ((scanOnePort "localhost" true net0 lat0 9999).«open» = false →
        (scanOnePort "localhost" true net0 lat0 9999).service = "" ∧
          (scanOnePort "localhost" true net0 lat0 9999).banner = "" ∧
          (scanOnePort "localhost" true net0 lat0 9999).fingerprint = "") :=
  scanHostPorts_open_iff_err "localhost" [22, 9999] 4 true net0 lat0 [9999, 22]
    (fun p e hfe => by
      unfold net0 at hfe
      by_cases hp : p = 22
      · rw [if_pos hp] at hfe
        exact DialOutcome.noConfusion hfe
      · rw [if_neg hp] at hfe
        injection hfe with hfe
        rw [← hfe]
        decide)
    (scanOnePort "localhost" true net0 lat0 9999) (by decide)

theorem ssh_branch_service_witness :
    (fingerprintService "localhost" 22 sshEnv).1 = "ssh" :=
  (ssh_branch_service "localhost" 22 sshEnv (Or.inr rfl)).1

theorem scan_one_result_per_port_witness :
    (ScanHostPorts "a" [22, 9999] 4 true net0 lat0 [9999, 22]).length
        = [22, 9999].length ∧
      (scanAllHosts ["a"] [22, 9999] 4 true (fun _ => net0) (fun _ => lat0)
          (fun _ => [9999, 22])).length = ["a"].length * [22, 9999].length := by
  have h := scan_one_result_per_port ["a"] [22, 9999] 4 true (fun _ => net0)
    (fun _ => lat0) (fun _ => [9999, 22]) (by decide)
  exact ⟨(h.1 "a" (by decide)).1, h.2⟩

theorem workers_guard_witness : effectiveWorkers 0 = 100 :=
  (workers_guard 0).1 (by decide)

theorem scan_noProbe_static_service_witness :
    (scanOnePort "localhost" false net0 lat0 22).banner = "" ∧
      (scanOnePort "localhost" false net0 lat0 22).fingerprint = "" ∧
      (scanOnePort "localhost" false net0 lat0 22).service =
        knownServiceForPort (scanOnePort "localhost" false net0 lat0 22).port :=
  (scan_noProbe_static_service "localhost" [22, 9999] 4 net0 lat0 [9999, 22]).1
    (scanOnePort "localhost" false net0 lat0 22) (by decide) (by decide)

theorem httpProbe_http_response_witness :
    (httpProbe "h" "HTTP/1.1 200 OK\r\nServer: nginx\r\n\r\n").1 = "http" ∧
      (httpProbe "h" "HTTP/1.1 200 OK\r\nServer: nginx\r\n\r\n").2.1 =
        statusLine "HTTP/1.1 200 OK\r\nServer: nginx\r\n\r\n" :=
  httpProbe_http_response.1 "h" "HTTP/1.1 200 OK\r\nServer: nginx\r\n\r\n" (by decide)

theorem banner_branch_fp_eq_banner_witness :
    (fingerprintService "localhost" 21 ftpEnv).2.2 =
      (fingerprintService "localhost" 21 ftpEnv).2.1 :=
  banner_branch_fp_eq_banner "localhost" 21 ftpEnv (by decide)

end PortScanner
